import Mathlib

/-!
Verification of the context-lifecycle and dispatch core of the repository
(a simplified Flask 1.0.2: `src/simple/1.0.2/__flask.py` and
`src/simple/1.0.2/__globals.py`) against its natural-language specification.

The Python code is shallowly embedded: pure logic becomes Lean functions,
mutation becomes explicit state passing, raised exceptions become `Except`
errors or explicit outcome values.  Collaborator classes that the repository
imports from modules not present under `src/` (`__ctx.py`, `__wrappers.py`)
are modelled from the specification; each such definition carries a doc
comment saying so.
-/

namespace FlaskSpec

/-! ## Context stacks and proxy lookup (`__globals.py`) -/

/-- A request context as seen by the proxy lookups: its `request` and
`session` attributes, represented by object identities. -/
structure ReqCtx where
  request : Nat
  session : Nat
deriving DecidableEq

/-- An application context as seen by the proxy lookups: its `app` and `g`
attributes, represented by object identities. -/
structure AppCtx where
  app : Nat
  g : Nat
deriving DecidableEq

/-- The error message `_request_ctx_err_msg` from `__globals.py`. -/
def _request_ctx_err_msg : String :=
  "Working outside of request context.\n\nThis typically means that you attempted to use functionality that needed\nan active HTTP request.  Consult the documentation on testing for\ninformation about how to avoid this problem."

/-- The error message `_app_ctx_err_msg` from `__globals.py`. -/
def _app_ctx_err_msg : String :=
  "Working outside of application context.\n\nThis typically means that you attempted to use functionality that needed\nto interface with the current application object in some way. To solve\nthis, set up an application context with app.app_context().  See the\ndocumentation for more information."

/-- Attribute names looked up on the top request context by the `request`
and `session` proxies. -/
inductive ReqAttrName where
  | request
  | session
deriving DecidableEq

/-- A `LocalStack` is modelled as a list with the top at the head. -/
def stackTop {α : Type} (stack : List α) : Option α := stack.head?

/-- `_lookup_req_object` from `__globals.py`: raise `RuntimeError` with the
request-context message when the request stack is empty, otherwise return
the named attribute of the top request context. -/
def _lookup_req_object (stack : List ReqCtx) (name : ReqAttrName) : Except String Nat :=
  match stackTop stack with
  | none => .error _request_ctx_err_msg
  | some top =>
      .ok (match name with
        | .request => top.request
        | .session => top.session)

/-- `_find_app` from `__globals.py`: raise `RuntimeError` with the
app-context message when the app stack is empty, otherwise return the `app`
attribute of the top application context. -/
def _find_app (stack : List AppCtx) : Except String Nat :=
  match stackTop stack with
  | none => .error _app_ctx_err_msg
  | some top => .ok top.app

/-- `_lookup_app_object` from `__globals.py`, applied (as in the source) to
the attribute name `g`. -/
def _lookup_app_object_g (stack : List AppCtx) : Except String Nat :=
  match stackTop stack with
  | none => .error _app_ctx_err_msg
  | some top => .ok top.g

/-! ## `add_url_rule` (`__flask.py` lines 253-300) -/

/-- The attributes of a Python view function consulted by `add_url_rule`:
its identity (for the `old_func != view_func` comparison), its `__name__`,
and the optional `methods`, `required_methods` and
`provide_automatic_options` attributes. -/
structure ViewFunc where
  fid : Nat
  fname : String
  methodsAttr : Option (List String)
  requiredMethods : List String
  provideAutomaticOptionsAttr : Option Bool
deriving DecidableEq

/-- The `methods` keyword argument: either a string (a `TypeError` in the
source) or an iterable of strings. -/
inductive MethodsArg where
  | ofString (s : String)
  | ofList (l : List String)
deriving DecidableEq

/-- A rule record as added to `url_map` by `add_url_rule`. -/
structure RuleRec where
  rule : String
  methods : List String
  endpoint : String
  provide_automatic_options : Bool
deriving DecidableEq

/-- The pieces of application state touched by `add_url_rule`. -/
structure AppRegState where
  debug : Bool
  got_first_request : Bool
  url_map : List RuleRec
  view_functions : List (String × Nat)
deriving DecidableEq

/-- The distinct errors `add_url_rule` can raise. -/
inductive AddUrlRuleError where
  | setupAfterFirstRequest
  | missingEndpoint
  | methodsString
  | endpointOverwrite
deriving DecidableEq

/-- Python dict assignment `d[k] = v` on an association list: replace the
binding in place when the key exists (insertion order preserved), append
otherwise. -/
def dictSet (m : List (String × Nat)) (k : String) (v : Nat) : List (String × Nat) :=
  if (m.lookup k).isSome then
    m.map (fun p => cond (p.1 == k) (k, v) p)
  else
    m ++ [(k, v)]

/-- `endpoint = _endpoint_from_view_func(view_func)` when no endpoint was
passed (`__helpers.py` returns the function name). -/
def resolveEndpoint (endpoint? : Option String) (view_func? : Option ViewFunc) : String :=
  match endpoint? with
  | some e => e
  | none => (view_func?.map (fun f => f.fname)).getD ""

/-- The methods / automatic-OPTIONS computation of `add_url_rule`, building
the rule record added to `url_map`. -/
def buildRule (rule endpoint : String) (view_func? : Option ViewFunc)
    (provide_automatic_options? : Option Bool) (methodsOpt : Option MethodsArg) : RuleRec :=
  let methods0 : List String := match methodsOpt with
    | some (.ofList l) => l
    | some (.ofString _) => []
    | none =>
      match view_func? with
      | some f =>
        match f.methodsAttr with
        | some ms => if ms.isEmpty then ["GET"] else ms
        | none => ["GET"]
      | none => ["GET"]
  let methods1 := methods0.map (fun s => s.toUpper)
  let required := match view_func? with
    | some f => f.requiredMethods
    | none => []
  let pao0 : Option Bool := match provide_automatic_options? with
    | some b => some b
    | none => view_func?.bind (fun f => f.provideAutomaticOptionsAttr)
  let paoRequired : Bool × List String := match pao0 with
    | some b => (b, required)
    | none =>
      if methods1.contains "OPTIONS" then (false, required)
      else (true, required ++ ["OPTIONS"])
  { rule := rule,
    methods := methods1 ++ (paoRequired.2.filter (fun m => !(methods1.contains m))),
    endpoint := endpoint,
    provide_automatic_options := paoRequired.1 }

/-- The view-function registration tail of `add_url_rule`: raise
`AssertionError` when the endpoint is bound to a different function,
otherwise assign `view_functions[endpoint] = view_func`. -/
def registerViewFunc (vf : List (String × Nat)) (endpoint : String) (f : ViewFunc) :
    List (String × Nat) × Option AddUrlRuleError :=
  match vf.lookup endpoint with
  | some oldId =>
    if oldId ≠ f.fid then (vf, some .endpointOverwrite)
    else (dictSet vf endpoint f.fid, none)
  | none => (dictSet vf endpoint f.fid, none)

/-- `Flask.add_url_rule` (with the `setupmethod` guard), embedded from the
source.  On a raise, the returned state is the state at the moment of the
raise, so the `url_map.add` performed before the view-function check is
visible while the registry assignment is not. -/
def add_url_rule (st : AppRegState) (rule : String) (endpoint? : Option String)
    (view_func? : Option ViewFunc) (provide_automatic_options? : Option Bool)
    (methodsOpt : Option MethodsArg) : AppRegState × Option AddUrlRuleError :=
  if st.debug && st.got_first_request then (st, some .setupAfterFirstRequest)
  else
    match endpoint?, view_func?, methodsOpt with
    | none, none, _ => (st, some .missingEndpoint)
    | _, _, some (.ofString _) => (st, some .methodsString)
    | _, _, _ =>
      let endpoint := resolveEndpoint endpoint? view_func?
      let st1 := { st with
        url_map := st.url_map ++
          [buildRule rule endpoint view_func? provide_automatic_options? methodsOpt] }
      match view_func? with
      | none => (st1, none)
      | some f =>
        let r := registerViewFunc st1.view_functions endpoint f
        ({ st1 with view_functions := r.1 }, r.2)

/-! ## Routing failures and `raise_routing_exception` / `dispatch_request`
(`__flask.py` lines 607-667) -/

/-- A routing failure recorded on the request at context-construction time
(from the werkzeug routing collaborator): a redirect suggestion, no match,
or method-not-allowed. -/
inductive RoutingExc where
  | requestRedirect (target : String)
  | notFound
  | methodNotAllowed (allowed : List String)
deriving DecidableEq

/-- `isinstance(request.routing_exception, RequestRedirect)`. -/
def isRequestRedirect : RoutingExc → Bool
  | .requestRedirect _ => true
  | _ => false

/-- The exception raised by `raise_routing_exception`. -/
inductive RaisedRoutingError where
  | original (e : RoutingExc)
  | formDataRoutingRedirect
deriving DecidableEq

/-- `Flask.raise_routing_exception`: re-raise the recorded routing exception
unless debug mode is on, the exception is a `RequestRedirect`, and the
method is not GET/HEAD/OPTIONS, in which case raise the
`FormDataRoutingRedirect` diagnostic. -/
def raise_routing_exception (debug : Bool) (method : String) (exc : RoutingExc) :
    RaisedRoutingError :=
  if !debug || !(isRequestRedirect exc) ||
      (method == "GET" || method == "HEAD" || method == "OPTIONS") then
    .original exc
  else
    .formDataRoutingRedirect

/-- The parts of a matched `url_rule` consulted by `dispatch_request`. -/
structure RuleInfo where
  endpoint : String
  provide_automatic_options : Bool
deriving DecidableEq

/-- The observable outcome of `dispatch_request`: the view is invoked for
the rule endpoint, the automatic OPTIONS response is synthesized, or a
routing error is raised. -/
inductive DispatchResult where
  | viewCalled (endpoint : String)
  | optionsResponse
  | raised (e : RaisedRoutingError)
deriving DecidableEq

/-- `Flask.dispatch_request`: raise the recorded routing exception if one is
present, answer automatic OPTIONS requests without a view, and otherwise
dispatch to the view function of the matched rule. -/
def dispatch_request (debug : Bool) (method : String)
    (routing_exception : Option RoutingExc) (rule : RuleInfo) : DispatchResult :=
  match routing_exception with
  | some e => .raised (raise_routing_exception debug method e)
  | none =>
    if rule.provide_automatic_options && method == "OPTIONS" then .optionsResponse
    else .viewCalled rule.endpoint

/-! ## Error-handler resolution (`__flask.py` lines 934-970) -/

/-- Exception types are represented by identifiers. -/
abbrev TypeId := Nat

/-- Handlers are represented by identifiers. -/
abbrev HandlerId := Nat

/-- An exception as consumed by `_find_error_handler`: the method resolution
order of its type (the type itself first), and the HTTP status code computed
by `_get_exc_class_and_code` (some code for `HTTPException` subclasses,
`none` otherwise). -/
structure ExcInfo where
  mro : List TypeId
  code : Option Nat
deriving DecidableEq

/-- The innermost dict of the handler registry: exception type to handler. -/
abbrev HandlerMap := List (TypeId × HandlerId)

/-- The middle dict: status-code-or-none to `HandlerMap`. -/
abbrev CodeMap := List (Option Nat × HandlerMap)

/-- `error_handler_spec`: scope (blueprint name or `None`) to `CodeMap`. -/
abbrev ErrorHandlerSpec := List (Option String × CodeMap)

/-- `self.error_handler_spec.setdefault(name, {}).get(c)`; a missing or
empty bucket behaves as an everywhere-empty map (the source skips it with
the `if not handler_map: continue` test). -/
def bucketLookup (spec : ErrorHandlerSpec) (name : Option String) (c : Option Nat) :
    HandlerMap :=
  (((spec.lookup name).getD []).lookup c).getD []

/-- The inner loop of `_find_error_handler`: walk `exc_class.__mro__` from
most specific to least specific and return the first registered handler. -/
def searchHandlerMap (hm : HandlerMap) : List TypeId → Option HandlerId
  | [] => none
  | cls :: rest =>
    match hm.lookup cls with
    | some h => some h
    | none => searchHandlerMap hm rest

/-- `Flask._find_error_handler`, embedded from the source: the four
scope/code buckets are consulted in the source order `(blueprint, code)`,
`(None, code)`, `(blueprint, None)`, `(None, None)`. -/
def _find_error_handler (spec : ErrorHandlerSpec) (blueprint : Option String)
    (e : ExcInfo) : Option HandlerId :=
  match searchHandlerMap (bucketLookup spec blueprint e.code) e.mro with
  | some h => some h
  | none =>
    match searchHandlerMap (bucketLookup spec none e.code) e.mro with
    | some h => some h
    | none =>
      match searchHandlerMap (bucketLookup spec blueprint none) e.mro with
      | some h => some h
      | none => searchHandlerMap (bucketLookup spec none none) e.mro

/-- The fixed precedence order as the spec words it: blueprint+code,
global+code, blueprint+type-only, global+type-only. -/
def specLookupOrder (blueprint : Option String) (code : Option Nat) :
    List (Option String × Option Nat) :=
  [(blueprint, code), (none, code), (blueprint, none), (none, none)]

/-- The spec-side description of handler resolution: try the four buckets in
the fixed precedence order, searching each by the type hierarchy, returning
the first handler found. -/
def findHandlerSpecSide (spec : ErrorHandlerSpec) (blueprint : Option String)
    (e : ExcInfo) : Option HandlerId :=
  (specLookupOrder blueprint e.code).findSome?
    (fun p => searchHandlerMap (bucketLookup spec p.1 p.2) e.mro)

/-! ## Response coercion: `make_response` (`__flask.py` lines 669-773) -/

/-- Modelled from the spec: the canonical response object.  The repository
wraps it in `__wrappers.py`, which is not under `src/`; per the spec the
body is carried unchanged, the default status is 200, a textual status
overwrites the full status line verbatim, a numeric status overwrites only
the status code, and supplied headers are appended to existing ones. -/
structure WResponse where
  body : String
  status_code : Nat
  status : String
  headers : List (String × String)
deriving DecidableEq

/-- Modelled from the spec: a fresh response around a string body, with the
default 200 status and no headers. -/
def responseDefault (body : String) : WResponse :=
  { body := body, status_code := 200, status := "200 OK", headers := [] }

/-- The Python values that can appear in a view return value as consumed by
`make_response`: strings, integers, `None`, response objects, werkzeug
`Headers` objects, dicts and lists of header pairs, and tuples. -/
inductive PyVal where
  | pstr (s : String)
  | pint (n : Nat)
  | pnone
  | presp (r : WResponse)
  | pheaders (l : List (String × String))
  | pdict (l : List (String × String))
  | plist (l : List (String × String))
  | ptuple (l : List PyVal)

/-- `isinstance(rv[1], (Headers, dict, tuple, list))`: the header-like test
deciding the 2-tuple ambiguity. -/
def isHeaderLike : PyVal → Bool
  | .pheaders _ => true
  | .pdict _ => true
  | .ptuple _ => true
  | .plist _ => true
  | _ => false

/-- Python truthiness for the `if headers:` guard. -/
def pyTruthy : PyVal → Bool
  | .pnone => false
  | .pstr s => !s.isEmpty
  | .pint n => n != 0
  | .pheaders l => !l.isEmpty
  | .pdict l => !l.isEmpty
  | .plist l => !l.isEmpty
  | .ptuple l => !l.isEmpty
  | .presp _ => true

/-- The key/value pairs obtained when a value is consumed by
`headers.extend(...)`; `none` when the value is not usable as headers
(a `TypeError` at runtime). -/
def headerPairs : PyVal → Option (List (String × String))
  | .pheaders l => some l
  | .pdict l => some l
  | .plist l => some l
  | .ptuple l =>
    l.mapM (fun v => match v with
      | .ptuple [.pstr k, .pstr w] => some (k, w)
      | _ => none)
  | _ => none

/-- The `TypeError`s that `make_response` can raise. -/
inductive MkErr where
  | badTupleShape
  | noneBody
  | badBodyType
  | badStatus
  | badHeaders
deriving DecidableEq

/-- Applying a supplied status to a response: text overwrites the status
line, a number overwrites the status code (modelled from the spec for the
`__wrappers.py` setters the source assigns to); any other value is a type
error. -/
def applyStatus (r : WResponse) (sv : PyVal) : Except MkErr WResponse :=
  match sv with
  | .pstr s => .ok { r with status := s }
  | .pint n => .ok { r with status_code := n }
  | _ => .error .badStatus

/-- `rv.headers.extend(headers)` guarded by `if headers:`. -/
def extendHeaders (r : WResponse) (hv : PyVal) : Except MkErr WResponse :=
  if pyTruthy hv then
    match headerPairs hv with
    | some ps => .ok { r with headers := r.headers ++ ps }
    | none => .error .badHeaders
  else .ok r

/-- The unpacking step of `make_response`: a 3-tuple is `(body, status,
headers)`, a 2-tuple is `(body, headers)` when the second element is
header-like and `(body, status)` otherwise, any other tuple length is a
`TypeError`, and a non-tuple is a bare body. -/
def unpackRv : PyVal → Except MkErr (PyVal × Option PyVal × Option PyVal)
  | .ptuple l =>
    match l with
    | [a, b, c] => .ok (a, some b, some c)
    | [a, b] =>
      if isHeaderLike b then .ok (a, none, some b)
      else .ok (a, some b, none)
    | _ => .error .badTupleShape
  | v => .ok (v, none, none)

/-- `Flask.make_response`, embedded from the source: unpack tuple returns,
reject a `None` body, coerce the body to a response object (a string body
through the response constructor, a response body kept), then apply the
supplied status and extend the headers. -/
def make_response (rv : PyVal) : Except MkErr WResponse := do
  let (body, status?, headers?) ← unpackRv rv
  match body with
  | .pnone => .error .noneBody
  | .pstr s =>
    -- the response class consumes status and headers in its constructor
    let r0 := responseDefault s
    let r1 ← match status? with
      | none => .ok r0
      | some sv => applyStatus r0 sv
    match headers? with
    | none => .ok r1
    | some hv => extendHeaders r1 hv
  | .presp r =>
    -- prefer the status if it was provided, then extend existing headers
    let r1 ← match status? with
      | none => .ok r
      | some sv => applyStatus r sv
    match headers? with
    | none => .ok r1
    | some hv => extendHeaders r1 hv
  | _ => .error .badBodyType

/-! ## Finalization (`__flask.py` lines 775-859) and exception handling
(`__flask.py` lines 1064-1104) -/

/-- Exceptions that can escape view code or response processing: arbitrary
application exceptions (by identity) or the `TypeError`s raised by
`make_response`. -/
inductive PyExc where
  | user (n : Nat)
  | typeErr (m : MkErr)
deriving DecidableEq

/-- `Flask.process_response`: run the request-recorded after-request
handlers, then the blueprint and global registries in reverse registration
order, then save a non-null session.  Handlers and the session saver are
modelled as functions that may raise. -/
def process_response (ctxAfter afterBp afterGlobal : List (WResponse → Except PyExc WResponse))
    (save_session : WResponse → Except PyExc WResponse) (is_null_session : Bool)
    (response : WResponse) : Except PyExc WResponse := do
  let r ← (ctxAfter ++ afterBp.reverse ++ afterGlobal.reverse).foldlM
    (fun r h => h r) response
  if is_null_session then .ok r
  else save_session r

/-- `Flask.finalize_request`, embedded from the source: `make_response` runs
outside the guarded region, so its failures always propagate; a failure in
`process_response` (after-request handlers, session saving) or the
request-finished signal is re-raised during normal finalization but logged
and swallowed when `from_error_handler` is set, returning the response that
`make_response` produced.  The boolean in the result records whether such a
failure was logged and swallowed. -/
def finalize_request (ctxAfter afterBp afterGlobal : List (WResponse → Except PyExc WResponse))
    (save_session : WResponse → Except PyExc WResponse) (is_null_session : Bool)
    (rv : PyVal) (from_error_handler : Bool) : Except PyExc (WResponse × Bool) :=
  match make_response rv with
  | .error m => .error (.typeErr m)
  | .ok response =>
    match process_response ctxAfter afterBp afterGlobal save_session is_null_session
        response with
    | .ok r2 => .ok (r2, false)
    | .error e =>
      if from_error_handler then .ok (response, true)
      else .error e

/-- The configuration read by `propagate_exceptions` and the policy
branches of `handle_exception`. -/
structure AppConfig where
  propagate_exceptions_cfg : Option Bool
  testing : Bool
  debug : Bool
deriving DecidableEq

/-- `Flask.propagate_exceptions`: the `PROPAGATE_EXCEPTIONS` configuration
value when set, otherwise testing-or-debug; read fresh from the
configuration on every evaluation. -/
def propagate_exceptions (cfg : AppConfig) : Bool :=
  match cfg.propagate_exceptions_cfg with
  | some b => b
  | none => cfg.testing || cfg.debug

/-- Type identifier for `werkzeug.exceptions.InternalServerError`. -/
def tidInternalServerError : TypeId := 500

/-- Type identifier for `werkzeug.exceptions.HTTPException`. -/
def tidHTTPException : TypeId := 901

/-- Type identifier for Python `Exception`. -/
def tidException : TypeId := 902

/-- The `InternalServerError()` instance passed to `_find_error_handler`
by `handle_exception`: its mro and its 500 status code. -/
def internalServerErrorInfo : ExcInfo :=
  { mro := [tidInternalServerError, tidHTTPException, tidException], code := some 500 }

/-- Modelled from the spec: the generic failure response produced when an
unhandled exception is converted and no 500 handler is registered (the
`InternalServerError()` fallback rendered by the response layer, which is
not under `src/`). -/
def internalServerErrorResponse : WResponse :=
  { body := "500 Internal Server Error", status_code := 500,
    status := "500 INTERNAL SERVER ERROR", headers := [] }

/-- The observable result of `handle_exception`: whether `log_exception`
ran, and either a response or the exception escaping the call. -/
structure HandleExcResult where
  logged : Bool
  outcome : Except PyExc WResponse

/-- `Flask.handle_exception`, embedded from the source: look up the 500
handler, re-raise the exception when the freshly computed propagation flag
is true (the source re-raises before `log_exception` runs), otherwise log
the exception and return the generic 500 response or the 500 handler result
finalized in error-handler mode. -/
def handle_exception (cfg : AppConfig) (spec : ErrorHandlerSpec) (bp : Option String)
    (handlerRv : HandlerId → PyVal)
    (ctxAfter afterBp afterGlobal : List (WResponse → Except PyExc WResponse))
    (save_session : WResponse → Except PyExc WResponse) (is_null_session : Bool)
    (e : PyExc) : HandleExcResult :=
  let handler? := _find_error_handler spec bp internalServerErrorInfo
  if propagate_exceptions cfg then
    { logged := false, outcome := .error e }
  else
    { logged := true,
      outcome :=
        match handler? with
        | none => .ok internalServerErrorResponse
        | some h =>
          (finalize_request ctxAfter afterBp afterGlobal save_session is_null_session
            (handlerRv h) true).map (fun p => p.1) }

/-! ## Preprocessing and the dispatch pipeline
(`__flask.py` lines 580-605 and 861-876) -/

/-- The scoped callback lists of `preprocess_request`:
`funcs = d.get(None, ())`, then `if bp is not None and bp in d:
funcs = chain(funcs, d[bp])` — global scope first, then the blueprint scope
of the current request. -/
def scopedFuncs {α : Type} (d : List (Option String × List α)) (bp : Option String) :
    List α :=
  ((d.lookup none).getD []) ++
    (match bp with
     | none => []
     | some b => (d.lookup (some b)).getD [])

/-- The before-request loop of `preprocess_request`: call each callback in
order, recording its id, and stop at the first non-None return value.
Callbacks are modelled as their id paired with their return value. -/
def runBeforeFuncs : List (Nat × Option PyVal) → List Nat × Option PyVal
  | [] => ([], none)
  | (i, r) :: rest =>
    match r with
    | some v => ([i], some v)
    | none =>
      let p := runBeforeFuncs rest
      (i :: p.1, p.2)

/-- `Flask.preprocess_request`: call every URL-value preprocessor (global
scope then blueprint scope) with the matched endpoint and view args, then
the before-request callbacks with the same scoping, short-circuiting at the
first non-None result.  Returns the ids of the URL preprocessors called,
the ids of the before-request callbacks called, and the short-circuit
value. -/
def preprocess_request (urlPre : List (Option String × List Nat))
    (before : List (Option String × List (Nat × Option PyVal)))
    (bp : Option String) : List Nat × List Nat × Option PyVal :=
  let urlCalled := scopedFuncs urlPre bp
  let p := runBeforeFuncs (scopedFuncs before bp)
  (urlCalled, p.1, p.2)

/-- What the dispatch stage of `full_dispatch_request` produced: the
preprocessing short-circuit value used in place of the view return value,
the view return value, the automatic OPTIONS response, or a routing
exception escalated to the error-handling path. -/
inductive DispatchRv where
  | fromBefore (v : PyVal)
  | fromView (endpoint : String) (v : PyVal)
  | optionsResponse
  | escalated (e : RaisedRoutingError)

/-- The `rv = self.preprocess_request(); if rv is None:
rv = self.dispatch_request()` core of `full_dispatch_request`, with the view
return value supplied by the view registry. -/
def full_dispatch_core (urlPre : List (Option String × List Nat))
    (before : List (Option String × List (Nat × Option PyVal)))
    (bp : Option String) (debug : Bool) (method : String)
    (routing_exception : Option RoutingExc) (rule : RuleInfo)
    (viewRv : String → PyVal) :
    (List Nat × List Nat) × DispatchRv :=
  let pre := preprocess_request urlPre before bp
  match pre.2.2 with
  | some v => ((pre.1, pre.2.1), .fromBefore v)
  | none =>
    match dispatch_request debug method routing_exception rule with
    | .viewCalled ep => ((pre.1, pre.2.1), .fromView ep (viewRv ep))
    | .optionsResponse => ((pre.1, pre.2.1), .optionsResponse)
    | .raised e => ((pre.1, pre.2.1), .escalated e)

/-- The finalization step of `full_dispatch_request` applied to the
dispatch outcome: a before-request short-circuit value and a view return
value are finalized identically; the escalated and OPTIONS cases are
completed by machinery embedded separately. -/
def finalizeDispatchRv (cas bps gls : List (WResponse → Except PyExc WResponse))
    (save : WResponse → Except PyExc WResponse) (sn : Bool) :
    DispatchRv → Option (Except PyExc (WResponse × Bool))
  | .fromBefore v => some (finalize_request cas bps gls save sn v false)
  | .fromView _ v => some (finalize_request cas bps gls save sn v false)
  | .optionsResponse => none
  | .escalated _ => none

/-! ## Teardown pipeline and `wsgi_app`
(`__flask.py` lines 1106-1147 and 1170-1220) -/

/-- `Flask.do_teardown_request`: call the global request-teardown functions
in reverse registration order, then the blueprint-scoped ones in reverse
registration order, each with the exception being handled.  The performed
calls are returned in order as (function id, passed exception) pairs. -/
def do_teardown_request (tdr : List (Option String × List Nat)) (bp : Option String)
    (exc : Option PyExc) : List (Nat × Option PyExc) :=
  (((tdr.lookup none).getD []).reverse ++
    (match bp with
     | none => []
     | some b => ((tdr.lookup (some b)).getD []).reverse)).map (fun i => (i, exc))

/-- `Flask.do_teardown_appcontext`: call the application-teardown functions
in reverse registration order with the exception being handled. -/
def do_teardown_appcontext (tda : List Nat) (exc : Option PyExc) :
    List (Nat × Option PyExc) :=
  tda.reverse.map (fun i => (i, exc))

/-- `Flask.should_ignore_error` from the source: always false. -/
def should_ignore_error (_error : Option PyExc) : Bool := false

/-- Modelled from the spec: `RequestContext.auto_pop` / `pop` (in
`__ctx.py`, which is not under `src/`).  Pop runs `do_teardown_request`
with the passed exception, pops the request context, and — since in
`wsgi_app` the request context pushed its own application context — pops
that too, running `do_teardown_appcontext` with the same exception.
`auto_pop` performs the pop immediately; the deferred debug/testing mode is
optional test-support tooling outside the core contract (spec design
notes). -/
def requestContextAutoPop (tdr : List (Option String × List Nat)) (tda : List Nat)
    (bp : Option String) (exc : Option PyExc) :
    List (Nat × Option PyExc) × List (Nat × Option PyExc) :=
  (do_teardown_request tdr bp exc, do_teardown_appcontext tda exc)

/-- The outcome of `full_dispatch_request` as observed by `wsgi_app`: a
response (the view returned normally, a before-request value
short-circuited, or a recognized HTTP-level error was handled into a
response), or an exception that escaped dispatch and error interception. -/
inductive FDOutcome where
  | ok (r : WResponse)
  | raises (e : PyExc)

/-- The `error` variable of `wsgi_app` for a given dispatch outcome. -/
def excOfOutcome : FDOutcome → Option PyExc
  | .ok _ => none
  | .raises e => some e

/-- The observable behaviour of one `wsgi_app` call: what is returned or
re-raised, and the request- and app-level teardown calls performed. -/
structure WsgiResult where
  result : Except PyExc WResponse
  reqTeardownCalls : List (Nat × Option PyExc)
  appTeardownCalls : List (Nat × Option PyExc)

/-- `Flask.wsgi_app`, embedded from the source: push the request context
and run `full_dispatch_request`; on an `Exception` record it as `error` and
ask `handle_exception` for a response (which may itself re-raise); in the
`finally`, clear the error if `should_ignore_error` says so and
`auto_pop(error)` the context, which runs both teardown pipelines with the
error. -/
def wsgi_app (tdr : List (Option String × List Nat)) (tda : List Nat)
    (bp : Option String) (cfg : AppConfig) (reg : ErrorHandlerSpec)
    (hrv : HandlerId → PyVal)
    (cas bps gls : List (WResponse → Except PyExc WResponse))
    (save : WResponse → Except PyExc WResponse) (sn : Bool)
    (outcome : FDOutcome) : WsgiResult :=
  match outcome with
  | .ok resp =>
    let error : Option PyExc := none
    let error := if should_ignore_error error then none else error
    let pops := requestContextAutoPop tdr tda bp error
    { result := .ok resp, reqTeardownCalls := pops.1, appTeardownCalls := pops.2 }
  | .raises e =>
    let he := handle_exception cfg reg bp hrv cas bps gls save sn e
    let error : Option PyExc := some e
    let error := if should_ignore_error error then none else error
    let pops := requestContextAutoPop tdr tda bp error
    { result := he.outcome, reqTeardownCalls := pops.1, appTeardownCalls := pops.2 }

/-! ## The before-first-request barrier (`__flask.py` lines 564-578) -/

/-- The program counter of one worker executing
`try_trigger_before_first_request_functions`: the lockless flag check, the
blocking lock acquisition, the re-check under the lock, the callback loop,
the flag assignment (the lock is released on exit of the `with` block), and
the two exits (ran the callbacks vs skipped silently). -/
inductive WPc where
  | start
  | waiting
  | locked
  | running
  | setflag
  | doneRan
  | doneSkip
deriving DecidableEq

/-- A configuration of `n` workers concurrently entering the barrier of one
application: the `_got_first_request` flag, the `_before_request_lock`
holder, the callback executions performed so far (`runs`, appended in
registration order), and each worker's program counter. -/
structure BfrCfg (n : Nat) where
  flag : Bool
  lock : Option (Fin n)
  runs : List Nat
  pc : Fin n → WPc

/-- The interleaving semantics of
`try_trigger_before_first_request_functions`, one worker step at a time:
`startSkip`/`startGo` are the lockless `if self._got_first_request: return`;
`acquire` takes the free lock; `lockedSkip`/`lockedRun` are the re-check
under the lock; `runFuncs` runs the registered callback list; and
`setFlagRelease` sets `_got_first_request = True` and leaves the `with`
block, releasing the lock. -/
inductive BfrStep (funcs : List Nat) {n : Nat} : BfrCfg n → BfrCfg n → Prop where
  | startSkip (c : BfrCfg n) (w : Fin n) :
      c.pc w = .start → c.flag = true →
      BfrStep funcs c { c with pc := Function.update c.pc w .doneSkip }
  | startGo (c : BfrCfg n) (w : Fin n) :
      c.pc w = .start → c.flag = false →
      BfrStep funcs c { c with pc := Function.update c.pc w .waiting }
  | acquire (c : BfrCfg n) (w : Fin n) :
      c.pc w = .waiting → c.lock = none →
      BfrStep funcs c { c with lock := some w, pc := Function.update c.pc w .locked }
  | lockedSkip (c : BfrCfg n) (w : Fin n) :
      c.pc w = .locked → c.flag = true →
      BfrStep funcs c { c with lock := none, pc := Function.update c.pc w .doneSkip }
  | lockedRun (c : BfrCfg n) (w : Fin n) :
      c.pc w = .locked → c.flag = false →
      BfrStep funcs c { c with pc := Function.update c.pc w .running }
  | runFuncs (c : BfrCfg n) (w : Fin n) :
      c.pc w = .running →
      BfrStep funcs c { c with runs := c.runs ++ funcs,
                               pc := Function.update c.pc w .setflag }
  | setFlagRelease (c : BfrCfg n) (w : Fin n) :
      c.pc w = .setflag →
      BfrStep funcs c { c with flag := true, lock := none,
                               pc := Function.update c.pc w .doneRan }

/-- Reachability by interleaved worker steps. -/
def BfrReach (funcs : List Nat) {n : Nat} (a b : BfrCfg n) : Prop :=
  Relation.ReflTransGen (BfrStep funcs) a b

/-- The initial configuration of a fresh application: flag unset, lock
free, no callbacks run, every worker about to enter the barrier. -/
def bfrInit (n : Nat) : BfrCfg n :=
  { flag := false, lock := none, runs := [], pc := fun _ => .start }

/-- A configuration of an application whose first request was already
handled (flag set, prior execution record `r0`), with `n` fresh workers
entering the barrier. -/
def bfrLater (n : Nat) (r0 : List Nat) : BfrCfg n :=
  { flag := true, lock := none, runs := r0, pc := fun _ => .start }

/-- The inductive invariant of the barrier from a fresh start: the lock is
owned by any worker past the acquisition, and the system is in one of four
phases: nobody past the re-check (nothing run), one worker about to run the
callbacks (nothing run yet), one worker between running and setting the
flag (callbacks run once), or the flag set with exactly one finished runner
(callbacks run once). -/
def BfrInv (funcs : List Nat) {n : Nat} (c : BfrCfg n) : Prop :=
  (∀ w, (c.pc w = .locked ∨ c.pc w = .running ∨ c.pc w = .setflag) → c.lock = some w) ∧
  ((c.flag = false ∧ c.runs = [] ∧
      ∀ w, c.pc w = .start ∨ c.pc w = .waiting ∨ c.pc w = .locked) ∨
   (c.flag = false ∧ c.runs = [] ∧
      ∃ w, c.pc w = .running ∧ ∀ u, u ≠ w → (c.pc u = .start ∨ c.pc u = .waiting)) ∨
   (c.flag = false ∧ c.runs = funcs ∧
      ∃ w, c.pc w = .setflag ∧ ∀ u, u ≠ w → (c.pc u = .start ∨ c.pc u = .waiting)) ∨
   (c.flag = true ∧ c.runs = funcs ∧
      ∃ w, c.pc w = .doneRan ∧ ∀ u, u ≠ w →
        (c.pc u ≠ .doneRan ∧ c.pc u ≠ .running ∧ c.pc u ≠ .setflag)))

/-- The invariant of the barrier after the first request was handled: the
flag stays set, no callback ever runs again, every worker is untouched or
has skipped silently. -/
def BfrLaterInv (r0 : List Nat) {n : Nat} (c : BfrCfg n) : Prop :=
  c.flag = true ∧ c.runs = r0 ∧ ∀ w, c.pc w = .start ∨ c.pc w = .doneSkip

end FlaskSpec

/-! ## Helper lemmas -/

namespace FlaskSpec

theorem lookup_cons_same {β : Type} (k : String) (b : β) (t : List (String × β)) :
    List.lookup k ((k, b) :: t) = some b := by
  simp [List.lookup]

theorem lookup_cons_other {β : Type} (k a : String) (hne : (k == a) = false)
    (b : β) (t : List (String × β)) :
    List.lookup k ((a, b) :: t) = List.lookup k t := by
  simp [List.lookup, hne]

theorem lookup_map_set (m : List (String × Nat)) (k : String) (v : Nat) :
    (m.map (fun p => cond (p.1 == k) (k, v) p)).lookup k =
      if (m.lookup k).isSome then some v else none := by
  induction m with
  | nil => simp
  | cons a t ih =>
    obtain ⟨a1, a2⟩ := a
    simp only [List.map_cons]
    by_cases h : a1 = k
    · subst h
      simp only [beq_self_eq_true, cond_true]
      rw [lookup_cons_same, lookup_cons_same]
      simp
    · have h1 : (a1 == k) = false := beq_false_of_ne h
      have hne : (k == a1) = false := beq_false_of_ne (fun he => h he.symm)
      rw [h1, cond_false, lookup_cons_other k a1 hne, lookup_cons_other k a1 hne, ih]

theorem lookup_append_single (m : List (String × Nat)) (k : String) (v : Nat)
    (h : m.lookup k = none) :
    (m ++ [(k, v)]).lookup k = some v := by
  induction m with
  | nil => exact lookup_cons_same k v []
  | cons a t ih =>
    obtain ⟨a1, a2⟩ := a
    by_cases hk : k = a1
    · subst hk
      rw [lookup_cons_same] at h
      cases h
    · have hkf : (k == a1) = false := beq_false_of_ne hk
      rw [lookup_cons_other k a1 hkf] at h
      rw [List.cons_append, lookup_cons_other k a1 hkf]
      exact ih h

theorem lookup_dictSet (m : List (String × Nat)) (k : String) (v : Nat) :
    (dictSet m k v).lookup k = some v := by
  unfold dictSet
  by_cases h : (m.lookup k).isSome
  · simp [h, lookup_map_set]
  · have hnone : m.lookup k = none := by
      cases hm : m.lookup k <;> simp_all
    simp [h, lookup_append_single m k v hnone]

theorem runBeforeFuncs_all_none (l : List (Nat × Option PyVal))
    (h : ∀ p ∈ l, p.2 = none) :
    runBeforeFuncs l = (l.map (fun p => p.1), none) := by
  induction l with
  | nil => rfl
  | cons a rest ih =>
    obtain ⟨i, r⟩ := a
    have ha : r = none := h (i, r) (by simp)
    subst ha
    simp [runBeforeFuncs, ih (fun p hp => h p (by simp [hp]))]

theorem runBeforeFuncs_first_some (pre : List (Nat × Option PyVal)) (i : Nat)
    (v : PyVal) (post : List (Nat × Option PyVal))
    (h : ∀ p ∈ pre, p.2 = none) :
    runBeforeFuncs (pre ++ (i, some v) :: post) =
      (pre.map (fun p => p.1) ++ [i], some v) := by
  induction pre with
  | nil => rfl
  | cons a rest ih =>
    obtain ⟨j, r⟩ := a
    have ha : r = none := h (j, r) (by simp)
    subst ha
    simp [runBeforeFuncs, ih (fun p hp => h p (by simp [hp]))]

theorem update_pc_ne {n : Nat} {pc : Fin n → WPc} {w u : Fin n} (h : u ≠ w) (v : WPc) :
    Function.update pc w v u = pc u := Function.update_noteq h v pc

theorem bfrInv_step {funcs : List Nat} {n : Nat} {c c' : BfrCfg n}
    (h : BfrStep funcs c c') (hinv : BfrInv funcs c) : BfrInv funcs c' := by
  obtain ⟨hlock, hphase⟩ := hinv
  cases h with
  | startSkip w hw hf =>
    obtain ⟨cf, cl, cr, cp⟩ := c
    dsimp only at hlock hphase hw hf ⊢
    constructor
    · intro u hu
      by_cases huw : u = w
      · subst huw
        simp only [Function.update_same] at hu
        rcases hu with h0 | h0 | h0 <;> exact WPc.noConfusion h0
      · simp only [update_pc_ne huw] at hu
        exact hlock u hu
    · rcases hphase with ⟨hflag, _, _⟩ | ⟨hflag, _, _⟩ | ⟨hflag, _, _⟩ |
        ⟨hflag, hruns, w0, hw0, hoth⟩
      · rw [hf] at hflag; exact Bool.noConfusion hflag
      · rw [hf] at hflag; exact Bool.noConfusion hflag
      · rw [hf] at hflag; exact Bool.noConfusion hflag
      · refine Or.inr (Or.inr (Or.inr ⟨hflag, hruns, w0, ?_, ?_⟩))
        · have hne : w0 ≠ w := by
            intro he; rw [he, hw] at hw0; exact WPc.noConfusion hw0
          simp only [update_pc_ne hne]; exact hw0
        · intro u hu
          by_cases huw : u = w
          · subst huw
            simp only [Function.update_same]
            refine ⟨?_, ?_, ?_⟩ <;> intro h0 <;> exact WPc.noConfusion h0
          · simp only [update_pc_ne huw]
            exact hoth u hu
  | startGo w hw hf =>
    obtain ⟨cf, cl, cr, cp⟩ := c
    dsimp only at hlock hphase hw hf ⊢
    constructor
    · intro u hu
      by_cases huw : u = w
      · subst huw
        simp only [Function.update_same] at hu
        rcases hu with h0 | h0 | h0 <;> exact WPc.noConfusion h0
      · simp only [update_pc_ne huw] at hu
        exact hlock u hu
    · rcases hphase with ⟨hflag, hruns, hall⟩ | ⟨hflag, hruns, w0, hw0, hoth⟩ |
        ⟨hflag, hruns, w0, hw0, hoth⟩ | ⟨hflag, _, _⟩
      · refine Or.inl ⟨hflag, hruns, ?_⟩
        intro u
        by_cases huw : u = w
        · subst huw; exact Or.inr (Or.inl (by simp only [Function.update_same]))
        · simp only [update_pc_ne huw]; exact hall u
      · refine Or.inr (Or.inl ⟨hflag, hruns, w0, ?_, ?_⟩)
        · have hne : w0 ≠ w := by
            intro he; rw [he, hw] at hw0; exact WPc.noConfusion hw0
          simp only [update_pc_ne hne]; exact hw0
        · intro u hu
          by_cases huw : u = w
          · subst huw; exact Or.inr (by simp only [Function.update_same])
          · simp only [update_pc_ne huw]; exact hoth u hu
      · refine Or.inr (Or.inr (Or.inl ⟨hflag, hruns, w0, ?_, ?_⟩))
        · have hne : w0 ≠ w := by
            intro he; rw [he, hw] at hw0; exact WPc.noConfusion hw0
          simp only [update_pc_ne hne]; exact hw0
        · intro u hu
          by_cases huw : u = w
          · subst huw; exact Or.inr (by simp only [Function.update_same])
          · simp only [update_pc_ne huw]; exact hoth u hu
      · rw [hf] at hflag; exact Bool.noConfusion hflag
  | acquire w hw hl =>
    obtain ⟨cf, cl, cr, cp⟩ := c
    dsimp only at hlock hphase hw hl ⊢
    constructor
    · intro u hu
      by_cases huw : u = w
      · subst huw; rfl
      · simp only [update_pc_ne huw] at hu
        have := hlock u hu
        rw [hl] at this
        exact Option.noConfusion this
    · rcases hphase with ⟨hflag, hruns, hall⟩ | ⟨hflag, hruns, w0, hw0, hoth⟩ |
        ⟨hflag, hruns, w0, hw0, hoth⟩ | ⟨hflag, hruns, w0, hw0, hoth⟩
      · refine Or.inl ⟨hflag, hruns, ?_⟩
        intro u
        by_cases huw : u = w
        · subst huw; exact Or.inr (Or.inr (by simp only [Function.update_same]))
        · simp only [update_pc_ne huw]; exact hall u
      · have := hlock w0 (Or.inr (Or.inl hw0))
        rw [hl] at this
        exact Option.noConfusion this
      · have := hlock w0 (Or.inr (Or.inr hw0))
        rw [hl] at this
        exact Option.noConfusion this
      · refine Or.inr (Or.inr (Or.inr ⟨hflag, hruns, w0, ?_, ?_⟩))
        · have hne : w0 ≠ w := by
            intro he; rw [he, hw] at hw0; exact WPc.noConfusion hw0
          simp only [update_pc_ne hne]; exact hw0
        · intro u hu
          by_cases huw : u = w
          · subst huw
            simp only [Function.update_same]
            refine ⟨?_, ?_, ?_⟩ <;> intro h0 <;> exact WPc.noConfusion h0
          · simp only [update_pc_ne huw]; exact hoth u hu
  | lockedSkip w hw hf =>
    obtain ⟨cf, cl, cr, cp⟩ := c
    dsimp only at hlock hphase hw hf ⊢
    constructor
    · intro u hu
      by_cases huw : u = w
      · subst huw
        simp only [Function.update_same] at hu
        rcases hu with h0 | h0 | h0 <;> exact WPc.noConfusion h0
      · simp only [update_pc_ne huw] at hu
        have h1 := hlock u hu
        have h2 := hlock w (Or.inl hw)
        rw [h2] at h1
        exact absurd (Option.some.inj h1).symm huw
    · rcases hphase with ⟨hflag, _, _⟩ | ⟨hflag, _, _⟩ | ⟨hflag, _, _⟩ |
        ⟨hflag, hruns, w0, hw0, hoth⟩
      · rw [hf] at hflag; exact Bool.noConfusion hflag
      · rw [hf] at hflag; exact Bool.noConfusion hflag
      · rw [hf] at hflag; exact Bool.noConfusion hflag
      · refine Or.inr (Or.inr (Or.inr ⟨hflag, hruns, w0, ?_, ?_⟩))
        · have hne : w0 ≠ w := by
            intro he; rw [he, hw] at hw0; exact WPc.noConfusion hw0
          simp only [update_pc_ne hne]; exact hw0
        · intro u hu
          by_cases huw : u = w
          · subst huw
            simp only [Function.update_same]
            refine ⟨?_, ?_, ?_⟩ <;> intro h0 <;> exact WPc.noConfusion h0
          · simp only [update_pc_ne huw]; exact hoth u hu
  | lockedRun w hw hf =>
    obtain ⟨cf, cl, cr, cp⟩ := c
    dsimp only at hlock hphase hw hf ⊢
    constructor
    · intro u hu
      by_cases huw : u = w
      · subst huw; exact hlock u (Or.inl hw)
      · simp only [update_pc_ne huw] at hu
        exact hlock u hu
    · rcases hphase with ⟨hflag, hruns, hall⟩ | ⟨hflag, hruns, w0, hw0, hoth⟩ |
        ⟨hflag, hruns, w0, hw0, hoth⟩ | ⟨hflag, _, _⟩
      · refine Or.inr (Or.inl ⟨hflag, hruns, w, ?_, ?_⟩)
        · simp only [Function.update_same]
        · intro u hu
          simp only [update_pc_ne hu]
          rcases hall u with h0 | h0 | h0
          · exact Or.inl h0
          · exact Or.inr h0
          · have h1 := hlock u (Or.inl h0)
            have h2 := hlock w (Or.inl hw)
            rw [h2] at h1
            exact absurd (Option.some.inj h1).symm hu
      · have h1 := hlock w0 (Or.inr (Or.inl hw0))
        have h2 := hlock w (Or.inl hw)
        rw [h2] at h1
        have he : w0 = w := (Option.some.inj h1).symm
        rw [he, hw] at hw0
        exact WPc.noConfusion hw0
      · have h1 := hlock w0 (Or.inr (Or.inr hw0))
        have h2 := hlock w (Or.inl hw)
        rw [h2] at h1
        have he : w0 = w := (Option.some.inj h1).symm
        rw [he, hw] at hw0
        exact WPc.noConfusion hw0
      · rw [hf] at hflag; exact Bool.noConfusion hflag
  | runFuncs w hw =>
    obtain ⟨cf, cl, cr, cp⟩ := c
    dsimp only at hlock hphase hw ⊢
    constructor
    · intro u hu
      by_cases huw : u = w
      · subst huw; exact hlock u (Or.inr (Or.inl hw))
      · simp only [update_pc_ne huw] at hu
        exact hlock u hu
    · rcases hphase with ⟨hflag, hruns, hall⟩ | ⟨hflag, hruns, w0, hw0, hoth⟩ |
        ⟨hflag, hruns, w0, hw0, hoth⟩ | ⟨hflag, hruns, w0, hw0, hoth⟩
      · rcases hall w with h0 | h0 | h0 <;> rw [hw] at h0 <;> exact WPc.noConfusion h0
      · have he : w = w0 := by
          by_contra hne
          rcases hoth w hne with h0 | h0 <;> rw [hw] at h0 <;> exact WPc.noConfusion h0
        subst he
        refine Or.inr (Or.inr (Or.inl ⟨hflag, ?_, w, ?_, ?_⟩))
        · rw [hruns]; rfl
        · simp only [Function.update_same]
        · intro u hu
          simp only [update_pc_ne hu]
          exact hoth u hu
      · have hne : w ≠ w0 := by
          intro he; rw [he, hw0] at hw; exact WPc.noConfusion hw
        rcases hoth w hne with h0 | h0 <;> rw [hw] at h0 <;> exact WPc.noConfusion h0
      · have hne : w ≠ w0 := by
          intro he; rw [he, hw0] at hw; exact WPc.noConfusion hw
        exact absurd hw (hoth w hne).2.1
  | setFlagRelease w hw =>
    obtain ⟨cf, cl, cr, cp⟩ := c
    dsimp only at hlock hphase hw ⊢
    constructor
    · intro u hu
      by_cases huw : u = w
      · subst huw
        simp only [Function.update_same] at hu
        rcases hu with h0 | h0 | h0 <;> exact WPc.noConfusion h0
      · simp only [update_pc_ne huw] at hu
        have h1 := hlock u hu
        have h2 := hlock w (Or.inr (Or.inr hw))
        rw [h2] at h1
        exact absurd (Option.some.inj h1).symm huw
    · rcases hphase with ⟨hflag, hruns, hall⟩ | ⟨hflag, hruns, w0, hw0, hoth⟩ |
        ⟨hflag, hruns, w0, hw0, hoth⟩ | ⟨hflag, hruns, w0, hw0, hoth⟩
      · rcases hall w with h0 | h0 | h0 <;> rw [hw] at h0 <;> exact WPc.noConfusion h0
      · have he : w = w0 := by
          by_contra hne
          rcases hoth w hne with h0 | h0 <;> rw [hw] at h0 <;> exact WPc.noConfusion h0
        subst he
        rw [hw0] at hw
        exact WPc.noConfusion hw
      · have he : w = w0 := by
          by_contra hne
          rcases hoth w hne with h0 | h0 <;> rw [hw] at h0 <;> exact WPc.noConfusion h0
        subst he
        refine Or.inr (Or.inr (Or.inr ⟨rfl, hruns, w, ?_, ?_⟩))
        · simp only [Function.update_same]
        · intro u hu
          simp only [update_pc_ne hu]
          rcases hoth u hu with h0 | h0 <;> rw [h0] <;>
            refine ⟨?_, ?_, ?_⟩ <;> intro h1 <;> exact WPc.noConfusion h1
      · have hne : w ≠ w0 := by
          intro he; rw [he, hw0] at hw; exact WPc.noConfusion hw
        exact absurd hw (hoth w hne).2.2

theorem bfrInv_init (funcs : List Nat) (n : Nat) : BfrInv funcs (bfrInit n) := by
  refine ⟨?_, Or.inl ⟨rfl, rfl, fun w => Or.inl rfl⟩⟩
  intro w hw
  rcases hw with h0 | h0 | h0 <;> exact WPc.noConfusion h0

theorem bfrInv_reach {funcs : List Nat} {n : Nat} {c : BfrCfg n}
    (h : BfrReach funcs (bfrInit n) c) : BfrInv funcs c := by
  induction h with
  | refl => exact bfrInv_init funcs n
  | tail _ hstep ih => exact bfrInv_step hstep ih

theorem bfrLaterInv_step {funcs r0 : List Nat} {n : Nat} {c c' : BfrCfg n}
    (h : BfrStep funcs c c') (hinv : BfrLaterInv r0 c) : BfrLaterInv r0 c' := by
  obtain ⟨hflag, hruns, hall⟩ := hinv
  cases h with
  | startSkip w hw hf =>
    obtain ⟨cf, cl, cr, cp⟩ := c
    dsimp only at hflag hruns hall hw hf ⊢
    refine ⟨hflag, hruns, ?_⟩
    intro u
    by_cases huw : u = w
    · subst huw; exact Or.inr (by simp only [Function.update_same])
    · simp only [update_pc_ne huw]; exact hall u
  | startGo w hw hf => rw [hflag] at hf; exact Bool.noConfusion hf
  | acquire w hw hl =>
    rcases hall w with h0 | h0 <;> rw [hw] at h0 <;> exact WPc.noConfusion h0
  | lockedSkip w hw hf =>
    rcases hall w with h0 | h0 <;> rw [hw] at h0 <;> exact WPc.noConfusion h0
  | lockedRun w hw hf =>
    rcases hall w with h0 | h0 <;> rw [hw] at h0 <;> exact WPc.noConfusion h0
  | runFuncs w hw =>
    rcases hall w with h0 | h0 <;> rw [hw] at h0 <;> exact WPc.noConfusion h0
  | setFlagRelease w hw =>
    rcases hall w with h0 | h0 <;> rw [hw] at h0 <;> exact WPc.noConfusion h0

theorem bfrLaterInv_reach {funcs r0 : List Nat} {n : Nat} {c : BfrCfg n}
    (h : BfrReach funcs (bfrLater n r0) c) : BfrLaterInv r0 c := by
  induction h with
  | refl => exact ⟨rfl, rfl, fun w => Or.inl rfl⟩
  | tail _ hstep ih => exact bfrLaterInv_step hstep ih

end FlaskSpec

/-! ## Theorems for the claims -/

namespace FlaskSpec

/-- C9: a proxy access with an empty corresponding stack fails with an error
message naming the missing context kind (application context vs request
context); with a non-empty stack it returns the corresponding attribute of
the top context object. -/
theorem C9_proxy_context_lookup :
    (∀ name, _lookup_req_object [] name = .error _request_ctx_err_msg) ∧
    _find_app [] = .error _app_ctx_err_msg ∧
    _lookup_app_object_g [] = .error _app_ctx_err_msg ∧
    (∃ rest, _request_ctx_err_msg = "Working outside of request context" ++ rest) ∧
    (∃ rest, _app_ctx_err_msg = "Working outside of application context" ++ rest) ∧
    (_request_ctx_err_msg ≠ _app_ctx_err_msg) ∧
    (∀ top rest, _lookup_req_object (top :: rest) .request = .ok top.request) ∧
    (∀ top rest, _lookup_req_object (top :: rest) .session = .ok top.session) ∧
    (∀ top rest, _find_app (top :: rest) = .ok top.app) ∧
    (∀ (top : AppCtx) rest, _lookup_app_object_g (top :: rest) = .ok top.g) := by
  refine ⟨?_, rfl, rfl,
    ⟨".\n\nThis typically means that you attempted to use functionality that needed\nan active HTTP request.  Consult the documentation on testing for\ninformation about how to avoid this problem.", rfl⟩,
    ⟨".\n\nThis typically means that you attempted to use functionality that needed\nto interface with the current application object in some way. To solve\nthis, set up an application context with app.app_context().  See the\ndocumentation for more information.", rfl⟩,
    by decide, ?_, ?_, ?_, ?_⟩
  · intro name; cases name <;> rfl
  · intro top rest; rfl
  · intro top rest; rfl
  · intro top rest; rfl
  · intro top rest; rfl

/-- C6: when the routing outcome is a redirect suggestion, a GET request or
non-debug mode makes dispatch raise the original redirect exception, while a
POST request in debug mode raises the distinct form-data diagnostic. -/
theorem C6_redirect_suppression :
    (∀ debug target rule,
      dispatch_request debug "GET" (some (.requestRedirect target)) rule =
        .raised (.original (.requestRedirect target))) ∧
    (∀ method target rule,
      dispatch_request false method (some (.requestRedirect target)) rule =
        .raised (.original (.requestRedirect target))) ∧
    (∀ target rule,
      dispatch_request true "POST" (some (.requestRedirect target)) rule =
        .raised .formDataRoutingRedirect) := by
  refine ⟨?_, ?_, ?_⟩
  · intro debug target rule
    cases debug <;> rfl
  · intro method target rule
    rfl
  · intro target rule
    rfl

/-- C3: error-handler lookup consults the four scope/code buckets in the
fixed precedence order and walks the type hierarchy most-specific-first
within each bucket, returning the first handler or none; in particular a
blueprint-scoped handler beats a global handler for the same type. -/
theorem C3_error_handler_precedence :
    (∀ spec bp e, _find_error_handler spec bp e = findHandlerSpecSide spec bp e) ∧
    (∀ (hm : HandlerMap) (pre : List TypeId) cls post h,
      (∀ c ∈ pre, hm.lookup c = none) → hm.lookup cls = some h →
      searchHandlerMap hm (pre ++ cls :: post) = some h) ∧
    (∀ spec bp e,
      (∀ p ∈ specLookupOrder bp e.code,
        searchHandlerMap (bucketLookup spec p.1 p.2) e.mro = none) →
      _find_error_handler spec bp e = none) ∧
    (∀ spec (bpName : String) (e : ExcInfo) (tid : TypeId) rest hb,
      e.code = none → e.mro = tid :: rest →
      (bucketLookup spec (some bpName) none).lookup tid = some hb →
      _find_error_handler spec (some bpName) e = some hb) := by
  refine ⟨?_, ?_, ?_, ?_⟩
  · intro spec bp e
    simp only [findHandlerSpecSide, specLookupOrder, List.findSome?_cons,
      List.findSome?_nil, _find_error_handler]
    cases searchHandlerMap (bucketLookup spec bp e.code) e.mro <;>
      cases searchHandlerMap (bucketLookup spec none e.code) e.mro <;>
        cases searchHandlerMap (bucketLookup spec bp none) e.mro <;>
          cases searchHandlerMap (bucketLookup spec none none) e.mro <;> rfl
  · intro hm pre cls post h hpre hcls
    induction pre with
    | nil => simp [searchHandlerMap, hcls]
    | cons c rest ih =>
      have hc : hm.lookup c = none := hpre c (by simp)
      have hrest : ∀ x ∈ rest, hm.lookup x = none := fun x hx => hpre x (by simp [hx])
      simp [searchHandlerMap, hc, ih hrest]
  · intro spec bp e h
    have h1 := h (bp, e.code) (by simp [specLookupOrder])
    have h2 := h (none, e.code) (by simp [specLookupOrder])
    have h3 := h (bp, none) (by simp [specLookupOrder])
    have h4 := h (none, none) (by simp [specLookupOrder])
    simp [_find_error_handler, h1, h2, h3, h4]
  · intro spec bpName e tid rest hb hcode hmro hreg
    unfold _find_error_handler
    rw [hcode, hmro]
    simp [searchHandlerMap, hreg]

/-- Witness for C3 at a concrete registry: with a global type-only handler 99
and a blueprint type-only handler 77 registered for type 5, an exception of
type 5 without a status code raised inside blueprint `bp` resolves to the
blueprint handler 77. -/
theorem C3_error_handler_precedence_witness :
    _find_error_handler
      [(some "bp", [(none, [(5, 77)])]), (none, [(none, [(5, 99)])])]
      (some "bp") ⟨[5, 2], none⟩ = some 77 := by
  refine (C3_error_handler_precedence.2.2.2
    [(some "bp", [(none, [(5, 77)])]), (none, [(none, [(5, 99)])])]
    "bp" ⟨[5, 2], none⟩ 5 [2] 77 rfl rfl ?_)
  simp [bucketLookup, List.lookup]

/-- C2: `make_response` unpacks a 3-tuple as (body, status, headers),
treats the second element of a 2-tuple as headers exactly when it is
header-like and as a status otherwise, rejects other tuple lengths and
`None` bodies, gives a plain string body status 200 unchanged, lets a
textual status overwrite the status line and a numeric status only the
status code, and appends supplied headers to existing ones. -/
theorem C2_make_response_coercion :
    (∀ s n hs, make_response (.ptuple [.pstr s, .pint n, .pdict hs]) =
      .ok { body := s, status_code := n, status := "200 OK", headers := hs }) ∧
    (∀ b hv, isHeaderLike hv = true →
      unpackRv (.ptuple [b, hv]) = .ok (b, none, some hv)) ∧
    (∀ b hv, isHeaderLike hv = false →
      unpackRv (.ptuple [b, hv]) = .ok (b, some hv, none)) ∧
    (∀ s l, make_response (.ptuple [.pstr s, .pdict l]) =
      .ok { body := s, status_code := 200, status := "200 OK", headers := l }) ∧
    (∀ s n, make_response (.ptuple [.pstr s, .pint n]) =
      .ok { body := s, status_code := n, status := "200 OK", headers := [] }) ∧
    (∀ l, l.length ≠ 2 → l.length ≠ 3 →
      make_response (.ptuple l) = .error .badTupleShape) ∧
    (make_response .pnone = .error .noneBody) ∧
    (∀ sv, make_response (.ptuple [.pnone, sv]) = .error .noneBody) ∧
    (∀ b c, make_response (.ptuple [.pnone, b, c]) = .error .noneBody) ∧
    (∀ s, make_response (.pstr s) =
      .ok { body := s, status_code := 200, status := "200 OK", headers := [] }) ∧
    (∀ r t, make_response (.ptuple [.presp r, .pstr t]) =
      .ok { r with status := t }) ∧
    (∀ r n, make_response (.ptuple [.presp r, .pint n]) =
      .ok { r with status_code := n }) ∧
    (∀ r l, l ≠ [] → make_response (.ptuple [.presp r, .pheaders l]) =
      .ok { r with headers := r.headers ++ l }) := by
  refine ⟨?_, ?_, ?_, ?_, ?_, ?_, rfl, ?_, ?_, ?_, ?_, ?_, ?_⟩
  · intro s n hs
    cases hs with
    | nil => rfl
    | cons a t => rfl
  · intro b hv h
    simp [unpackRv, h]
  · intro b hv h
    simp [unpackRv, h]
  · intro s l
    cases l with
    | nil => rfl
    | cons a t => rfl
  · intro s n
    rfl
  · intro l h2 h3
    rcases l with _ | ⟨a, _ | ⟨b, _ | ⟨c, _ | ⟨d, rest⟩⟩⟩⟩
    · rfl
    · rfl
    · exact absurd (rfl : ([a, b] : List PyVal).length = 2) h2
    · exact absurd (rfl : ([a, b, c] : List PyVal).length = 3) h3
    · rfl
  · intro sv
    cases sv <;> rfl
  · intro b c
    rfl
  · intro s
    rfl
  · intro r t
    rfl
  · intro r n
    rfl
  · intro r l hl
    cases l with
    | nil => exact absurd rfl hl
    | cons a t => rfl

/-- Witness for C2 at concrete inputs, mirroring the spec's coercion table. -/
theorem C2_make_response_coercion_witness :
    unpackRv (.ptuple [.pstr "ok", .pdict [("X", "1")]]) =
      .ok (.pstr "ok", none, some (.pdict [("X", "1")])) ∧
    unpackRv (.ptuple [.pstr "ok", .pint 404]) =
      .ok (.pstr "ok", some (.pint 404), none) ∧
    make_response (.ptuple [.pint 1, .pint 2, .pint 3, .pint 4]) = .error .badTupleShape ∧
    make_response (.ptuple [.presp (responseDefault "b"), .pheaders [("X", "1")]]) =
      .ok { responseDefault "b" with headers := [("X", "1")] } := by
  refine ⟨C2_make_response_coercion.2.1 (.pstr "ok") (.pdict [("X", "1")]) rfl,
    C2_make_response_coercion.2.2.1 (.pstr "ok") (.pint 404) rfl,
    C2_make_response_coercion.2.2.2.2.2.1
      [.pint 1, .pint 2, .pint 3, .pint 4] (by decide) (by decide),
    ?_⟩
  have h := C2_make_response_coercion.2.2.2.2.2.2.2.2.2.2.2.2
    (responseDefault "b") [("X", "1")] (by simp)
  simpa [responseDefault] using h

/-- C1: every `wsgi_app` call — whether dispatch produced a response
(normal return or handled HTTP-level error) or an exception escaped —
performs the request-level teardown calls exactly once (each registered
callback once, global then blueprint, in reverse registration order) and
the application-level teardown calls exactly once (each registered callback
once, in reverse registration order), passing the unhandled exception, or
None on a clean exit, to every teardown callback. -/
theorem C1_teardown_always_runs
    (tdr : List (Option String × List Nat)) (tda : List Nat)
    (bp : Option String) (cfg : AppConfig) (reg : ErrorHandlerSpec)
    (hrv : HandlerId → PyVal)
    (cas bps gls : List (WResponse → Except PyExc WResponse))
    (save : WResponse → Except PyExc WResponse) (sn : Bool)
    (outcome : FDOutcome) :
    (wsgi_app tdr tda bp cfg reg hrv cas bps gls save sn outcome).reqTeardownCalls =
      (((tdr.lookup none).getD []).reverse ++
        (match bp with
         | none => []
         | some b => ((tdr.lookup (some b)).getD []).reverse)).map
        (fun i => (i, excOfOutcome outcome)) ∧
    ((wsgi_app tdr tda bp cfg reg hrv cas bps gls save sn
        outcome).reqTeardownCalls.map (fun c => c.1)).Perm
      (((tdr.lookup none).getD []) ++
        (match bp with
         | none => []
         | some b => (tdr.lookup (some b)).getD [])) ∧
    (∀ c ∈ (wsgi_app tdr tda bp cfg reg hrv cas bps gls save sn
        outcome).reqTeardownCalls, c.2 = excOfOutcome outcome) ∧
    (wsgi_app tdr tda bp cfg reg hrv cas bps gls save sn outcome).appTeardownCalls =
      tda.reverse.map (fun i => (i, excOfOutcome outcome)) ∧
    ((wsgi_app tdr tda bp cfg reg hrv cas bps gls save sn
        outcome).appTeardownCalls.map (fun c => c.1)).Perm tda ∧
    (∀ c ∈ (wsgi_app tdr tda bp cfg reg hrv cas bps gls save sn
        outcome).appTeardownCalls, c.2 = excOfOutcome outcome) := by
  have hreq : (wsgi_app tdr tda bp cfg reg hrv cas bps gls save sn
      outcome).reqTeardownCalls = do_teardown_request tdr bp (excOfOutcome outcome) := by
    cases outcome <;> rfl
  have happ : (wsgi_app tdr tda bp cfg reg hrv cas bps gls save sn
      outcome).appTeardownCalls = do_teardown_appcontext tda (excOfOutcome outcome) := by
    cases outcome <;> rfl
  rw [hreq, happ]
  refine ⟨rfl, ?_, ?_, rfl, ?_, ?_⟩
  · rw [do_teardown_request.eq_def]
    rw [List.map_map]
    have hid : (fun c => c.1) ∘ (fun i => (i, excOfOutcome outcome)) =
        (fun i : Nat => i) := rfl
    rw [hid, List.map_id']
    exact ((((tdr.lookup none).getD []).reverse_perm).append
      (by cases bp with
        | none => exact List.Perm.refl []
        | some b => exact ((tdr.lookup (some b)).getD []).reverse_perm))
  · intro c hc
    rw [do_teardown_request.eq_def] at hc
    obtain ⟨i, _, rfl⟩ := List.mem_map.mp hc
    rfl
  · rw [do_teardown_appcontext]
    rw [List.map_map]
    have hid : (fun c => c.1) ∘ (fun i => (i, excOfOutcome outcome)) =
        (fun i : Nat => i) := rfl
    rw [hid, List.map_id']
    exact tda.reverse_perm
  · intro c hc
    rw [do_teardown_appcontext] at hc
    obtain ⟨i, _, rfl⟩ := List.mem_map.mp hc
    rfl

/-- C4: under any interleaving of any number of workers, a fresh
application runs the before-first-request callbacks at most once at any
time, and exactly once in total when every worker has finished, with
exactly one worker having performed the run under the lock; on an
application whose flag is already set, every invocation runs nothing and
skips silently. -/
theorem C4_before_first_request_exactly_once :
    (∀ (funcs : List Nat) (n : Nat) (c : BfrCfg n),
      BfrReach funcs (bfrInit n) c →
      (c.runs = [] ∨ c.runs = funcs) ∧
      ((∀ w, c.pc w = .doneRan ∨ c.pc w = .doneSkip) → 1 ≤ n →
        c.runs = funcs ∧
        ∃ w, c.pc w = .doneRan ∧ ∀ u, c.pc u = .doneRan → u = w)) ∧
    (∀ (funcs : List Nat) (n : Nat) (r0 : List Nat) (c : BfrCfg n),
      BfrReach funcs (bfrLater n r0) c →
      c.runs = r0 ∧ ∀ w, c.pc w = .start ∨ c.pc w = .doneSkip) := by
  constructor
  · intro funcs n c hreach
    obtain ⟨hlock, hphase⟩ := bfrInv_reach hreach
    constructor
    · rcases hphase with ⟨_, hruns, _⟩ | ⟨_, hruns, _⟩ | ⟨_, hruns, _⟩ | ⟨_, hruns, _⟩
      · exact Or.inl hruns
      · exact Or.inl hruns
      · exact Or.inr hruns
      · exact Or.inr hruns
    · intro hdone hn
      rcases hphase with ⟨_, _, hall⟩ | ⟨_, _, w0, hw0, _⟩ |
          ⟨_, _, w0, hw0, _⟩ | ⟨_, hruns, w0, hw0, hoth⟩
      · have w1 : Fin n := ⟨0, hn⟩
        rcases hall w1 with h0 | h0 | h0 <;> rcases hdone w1 with h1 | h1 <;>
          rw [h0] at h1 <;> exact WPc.noConfusion h1
      · rcases hdone w0 with h1 | h1 <;> rw [hw0] at h1 <;> exact WPc.noConfusion h1
      · rcases hdone w0 with h1 | h1 <;> rw [hw0] at h1 <;> exact WPc.noConfusion h1
      · refine ⟨hruns, w0, hw0, ?_⟩
        intro u hu
        by_contra hne
        exact (hoth u hne).1 hu
  · intro funcs n r0 c hreach
    obtain ⟨_, hruns, hall⟩ := bfrLaterInv_reach hreach
    exact ⟨hruns, hall⟩

/-- The configurations traversed by a single worker driving the barrier of
a fresh application with registered callbacks 5 and 6 to completion. -/
def bfrD0 : BfrCfg 1 := bfrInit 1

/-- After the lockless flag check: about to acquire the lock. -/
def bfrD1 : BfrCfg 1 := { bfrD0 with pc := Function.update bfrD0.pc 0 .waiting }

/-- Holding the lock. -/
def bfrD2 : BfrCfg 1 :=
  { bfrD1 with lock := some 0, pc := Function.update bfrD1.pc 0 .locked }

/-- Past the re-check under the lock, about to run the callbacks. -/
def bfrD3 : BfrCfg 1 := { bfrD2 with pc := Function.update bfrD2.pc 0 .running }

/-- Callbacks executed, about to set the flag. -/
def bfrD4 : BfrCfg 1 :=
  { bfrD3 with runs := bfrD3.runs ++ [5, 6], pc := Function.update bfrD3.pc 0 .setflag }

/-- Flag set and lock released: the barrier is complete. -/
def bfrD5 : BfrCfg 1 :=
  { bfrD4 with flag := true, lock := none, pc := Function.update bfrD4.pc 0 .doneRan }

/-- Witness for C4 at a concrete run: one worker on a fresh application
with callbacks [5, 6] reaches completion having run them exactly once, and
a worker entering after the first request leaves the run record alone. -/
theorem C4_before_first_request_exactly_once_witness :
    bfrD5.runs = [5, 6] ∧ bfrD5.pc 0 = WPc.doneRan ∧
    (bfrLater 1 [9]).runs = [9] := by
  have hreach : BfrReach [5, 6] (bfrInit 1) bfrD5 :=
    Relation.ReflTransGen.head (@BfrStep.startGo [5, 6] 1 bfrD0 0 rfl rfl)
      (Relation.ReflTransGen.head (@BfrStep.acquire [5, 6] 1 bfrD1 0 rfl rfl)
        (Relation.ReflTransGen.head (@BfrStep.lockedRun [5, 6] 1 bfrD2 0 rfl rfl)
          (Relation.ReflTransGen.head (@BfrStep.runFuncs [5, 6] 1 bfrD3 0 rfl)
            (Relation.ReflTransGen.head (@BfrStep.setFlagRelease [5, 6] 1 bfrD4 0 rfl)
              Relation.ReflTransGen.refl))))
  have h := (C4_before_first_request_exactly_once.1 [5, 6] 1 bfrD5 hreach).2
    (by decide) (by decide)
  have h2 := (C4_before_first_request_exactly_once.2 [5, 6] 1 [9] (bfrLater 1 [9])
    Relation.ReflTransGen.refl).1
  exact ⟨h.1, by decide, h2⟩

/-- C5: URL-value preprocessors run first (global scope then blueprint
scope), then the before-request callbacks with the same scoping; the first
callback returning a non-None value short-circuits dispatch: its value
replaces the view return value and is finalized exactly like one, while
routing resolution and view invocation are skipped; with no short-circuit
the view is invoked. -/
theorem C5_preprocess_short_circuit
    (urlPre : List (Option String × List Nat))
    (before : List (Option String × List (Nat × Option PyVal)))
    (bp : Option String) (debug : Bool) (method : String)
    (rexc : Option RoutingExc) (rule : RuleInfo) (viewRv : String → PyVal) :
    ((preprocess_request urlPre before bp).1 =
      ((urlPre.lookup none).getD []) ++
        (match bp with
         | none => []
         | some b => (urlPre.lookup (some b)).getD [])) ∧
    (∀ pre i v post,
      scopedFuncs before bp = pre ++ (i, some v) :: post →
      (∀ p ∈ pre, p.2 = none) →
      (preprocess_request urlPre before bp).2 =
        (pre.map (fun p => p.1) ++ [i], some v) ∧
      full_dispatch_core urlPre before bp debug method rexc rule viewRv =
        ((scopedFuncs urlPre bp, pre.map (fun p => p.1) ++ [i]), .fromBefore v)) ∧
    (∀ v cas bps gls save sn,
      finalizeDispatchRv cas bps gls save sn (.fromBefore v) =
        finalizeDispatchRv cas bps gls save sn (.fromView rule.endpoint v)) ∧
    ((∀ p ∈ scopedFuncs before bp, p.2 = none) →
      (preprocess_request urlPre before bp).2.2 = none ∧
      (rexc = none → rule.provide_automatic_options = false →
        full_dispatch_core urlPre before bp debug method rexc rule viewRv =
          ((scopedFuncs urlPre bp, (scopedFuncs before bp).map (fun p => p.1)),
            .fromView rule.endpoint (viewRv rule.endpoint)))) := by
  refine ⟨rfl, ?_, ?_, ?_⟩
  · intro pre i v post heq hnone
    have hrun := runBeforeFuncs_first_some pre i v post hnone
    constructor
    · simp only [preprocess_request]
      rw [heq, hrun]
    · simp only [full_dispatch_core, preprocess_request]
      rw [heq, hrun]
  · intro v cas bps gls save sn
    rfl
  · intro hnone
    have hrun := runBeforeFuncs_all_none (scopedFuncs before bp) hnone
    constructor
    · simp only [preprocess_request]
      rw [hrun]
    · intro hre hpao
      subst hre
      simp only [full_dispatch_core, preprocess_request]
      rw [hrun]
      simp [dispatch_request, hpao]

/-- Witness for C5 at a concrete hook table: before-request callbacks 1, 2,
3 registered globally with callback 2 returning a value: callback 1 and 2
run, 3 does not, the view is never invoked, and the value short-circuits. -/
theorem C5_preprocess_short_circuit_witness :
    full_dispatch_core [(none, [10])]
      [(none, [(1, none), (2, some (.pstr "hi")), (3, none)])]
      none false "GET" none ⟨"idx", false⟩ (fun _ => .pstr "view") =
      (([10], [1, 2]), .fromBefore (.pstr "hi")) := by
  have h := (C5_preprocess_short_circuit [(none, [10])]
      [(none, [(1, none), (2, some (.pstr "hi")), (3, none)])]
      none false "GET" none ⟨"idx", false⟩ (fun _ => .pstr "view")).2.1
      [(1, none)] 2 (.pstr "hi") [(3, none)] rfl
      (by intro p hp; simp at hp; subst hp; rfl)
  exact h.2

/-- C8 counterexample: an exception raised during response normalization
(`make_response`, here on a `None` return from the error handler) while
`from_error_handler` is set propagates out of `finalize_request` instead of
being logged and swallowed with a response returned, because the source
calls `make_response` outside the guarded region. -/
theorem C8_finalize_counterexample :
    finalize_request [] [] [] (fun r => .ok r) true .pnone true =
      .error (.typeErr .noneBody) := rfl

/-- C8 (amended): a failure in the after-request / session-saving stage
(`process_response`) while finalizing on behalf of an error handler is
logged and swallowed and the normalized response is returned, and during
normal finalization it propagates; a failure in the normalization step
itself (`make_response`) propagates in both modes. -/
theorem C8_finalize_error_swallowing
    (cas bps gls : List (WResponse → Except PyExc WResponse))
    (save : WResponse → Except PyExc WResponse) (sn : Bool) (rv : PyVal) :
    (∀ resp, make_response rv = .ok resp →
      (∀ r2, process_response cas bps gls save sn resp = .ok r2 →
        finalize_request cas bps gls save sn rv true = .ok (r2, false) ∧
        finalize_request cas bps gls save sn rv false = .ok (r2, false)) ∧
      (∀ e, process_response cas bps gls save sn resp = .error e →
        finalize_request cas bps gls save sn rv true = .ok (resp, true) ∧
        finalize_request cas bps gls save sn rv false = .error e)) ∧
    (∀ m, make_response rv = .error m →
      finalize_request cas bps gls save sn rv true = .error (.typeErr m) ∧
      finalize_request cas bps gls save sn rv false = .error (.typeErr m)) := by
  constructor
  · intro resp hmk
    constructor
    · intro r2 hpr
      constructor <;> simp [finalize_request, hmk, hpr]
    · intro e hpr
      constructor <;> simp [finalize_request, hmk, hpr]
  · intro m hmk
    constructor <;> simp [finalize_request, hmk]

/-- Witness for C8 (amended) at concrete inputs: a failing after-request
handler is swallowed in error-handler mode and propagates in normal mode. -/
theorem C8_finalize_error_swallowing_witness :
    finalize_request [] [] [fun _ => .error (.user 3)] (fun r => .ok r) true
      (.pstr "ok") true = .ok (responseDefault "ok", true) ∧
    finalize_request [] [] [fun _ => .error (.user 3)] (fun r => .ok r) true
      (.pstr "ok") false = .error (.user 3) := by
  have h := (C8_finalize_error_swallowing [] [] [fun _ => .error (.user 3)]
    (fun r => .ok r) true (.pstr "ok")).1 (responseDefault "ok") rfl
  exact h.2 (.user 3) rfl

/-- C7 counterexample: with `PROPAGATE_EXCEPTIONS` configured true, an
unhandled non-HTTP exception reaching `handle_exception` is re-raised
without being logged, refuting the claim that every such exception is
logged before the policy branch. -/
theorem C7_handle_exception_counterexample :
    (handle_exception ⟨some true, false, false⟩ [] none (fun _ => .pnone)
      [] [] [] (fun r => .ok r) true (.user 7)).logged = false ∧
    (handle_exception ⟨some true, false, false⟩ [] none (fun _ => .pnone)
      [] [] [] (fun r => .ok r) true (.user 7)).outcome = .error (.user 7) :=
  ⟨rfl, rfl⟩

/-- C7 (amended): when the freshly evaluated propagation flag
(`PROPAGATE_EXCEPTIONS` if set, else testing-or-debug) is true, the
exception is re-raised without logging; when it is false, the exception is
logged and converted into the generic 500 response or the registered 500
handler's finalized result; the flag is read from the configuration at each
call, not cached. -/
theorem C7_handle_exception_policy
    (cfg : AppConfig) (reg : ErrorHandlerSpec) (bp : Option String)
    (hrv : HandlerId → PyVal)
    (cas bps gls : List (WResponse → Except PyExc WResponse))
    (save : WResponse → Except PyExc WResponse) (sn : Bool) (e : PyExc) :
    (∀ b t d, propagate_exceptions ⟨some b, t, d⟩ = b) ∧
    (∀ t d, propagate_exceptions ⟨none, t, d⟩ = (t || d)) ∧
    (propagate_exceptions cfg = true →
      handle_exception cfg reg bp hrv cas bps gls save sn e =
        { logged := false, outcome := .error e }) ∧
    (propagate_exceptions cfg = false →
      (handle_exception cfg reg bp hrv cas bps gls save sn e).logged = true ∧
      (_find_error_handler reg bp internalServerErrorInfo = none →
        (handle_exception cfg reg bp hrv cas bps gls save sn e).outcome =
          .ok internalServerErrorResponse) ∧
      (∀ h, _find_error_handler reg bp internalServerErrorInfo = some h →
        (handle_exception cfg reg bp hrv cas bps gls save sn e).outcome =
          (finalize_request cas bps gls save sn (hrv h) true).map
            (fun p => p.1))) ∧
    (handle_exception { cfg with propagate_exceptions_cfg := some true }
        reg bp hrv cas bps gls save sn e).outcome = .error e ∧
    (handle_exception { cfg with propagate_exceptions_cfg := some false }
        reg bp hrv cas bps gls save sn e).logged = true := by
  refine ⟨fun b t d => rfl, fun t d => rfl, ?_, ?_, ?_, ?_⟩
  · intro hp
    simp [handle_exception, hp]
  · intro hp
    refine ⟨by simp [handle_exception, hp], ?_, ?_⟩
    · intro hh
      simp [handle_exception, hp, hh]
    · intro h hh
      simp [handle_exception, hp, hh]
  · unfold handle_exception
    rfl
  · unfold handle_exception
    rfl

/-- Witness for C7 (amended) at a concrete configuration (production mode:
no override, not testing, not debug): the flag is false, the exception is
logged and converted to the generic 500 response. -/
theorem C7_handle_exception_policy_witness :
    propagate_exceptions ⟨none, false, false⟩ = false ∧
    (handle_exception ⟨none, false, false⟩ [] none (fun _ => .pnone)
      [] [] [] (fun r => .ok r) true (.user 7)).logged = true ∧
    (handle_exception ⟨none, false, false⟩ [] none (fun _ => .pnone)
      [] [] [] (fun r => .ok r) true (.user 7)).outcome =
        .ok internalServerErrorResponse := by
  have h := (C7_handle_exception_policy ⟨none, false, false⟩ [] none (fun _ => .pnone)
    [] [] [] (fun r => .ok r) true (.user 7)).2.2.2.1 rfl
  exact ⟨rfl, h.1, h.2.1 rfl⟩

/-- C10: when `add_url_rule` is given a view function and the endpoint is
already bound to a different function, it raises `AssertionError` and the
view-function registry is left unchanged; re-registering the identical
function under the same endpoint succeeds and keeps the binding. -/
theorem C10_add_url_rule_endpoint_guard
    (st : AppRegState) (rule ep : String) (f : ViewFunc)
    (pao? : Option Bool) (m? : Option MethodsArg)
    (hguard : (st.debug && st.got_first_request) = false)
    (hms : ∀ s, m? ≠ some (.ofString s)) :
    (∀ oldId, st.view_functions.lookup ep = some oldId → oldId ≠ f.fid →
      (add_url_rule st rule (some ep) (some f) pao? m?).2 = some .endpointOverwrite ∧
      (add_url_rule st rule (some ep) (some f) pao? m?).1.view_functions = st.view_functions) ∧
    (st.view_functions.lookup ep = some f.fid →
      (add_url_rule st rule (some ep) (some f) pao? m?).2 = none ∧
      (add_url_rule st rule (some ep) (some f) pao? m?).1.view_functions.lookup ep =
        some f.fid) := by
  have harm : add_url_rule st rule (some ep) (some f) pao? m? =
      (let st1 := { st with
        url_map := st.url_map ++ [buildRule rule ep (some f) pao? m?] }
       let r := registerViewFunc st1.view_functions ep f
       ({ st1 with view_functions := r.1 }, r.2)) := by
    unfold add_url_rule
    rw [hguard]
    cases m? with
    | none => rfl
    | some ma =>
      cases ma with
      | ofString s => exact absurd rfl (hms s)
      | ofList l => rfl
  constructor
  · intro oldId hold hne
    rw [harm]
    simp only [registerViewFunc]
    rw [show ({ st with
        url_map := st.url_map ++ [buildRule rule ep (some f) pao? m?] } :
        AppRegState).view_functions = st.view_functions from rfl]
    rw [hold]
    simp [hne]
  · intro hold
    rw [harm]
    simp only [registerViewFunc]
    rw [show ({ st with
        url_map := st.url_map ++ [buildRule rule ep (some f) pao? m?] } :
        AppRegState).view_functions = st.view_functions from rfl]
    rw [hold]
    simp [lookup_dictSet]

/-- Witness for C10 at a concrete state: endpoint `home` bound to function 7;
registering function 8 under `home` fails and leaves the registry unchanged,
re-registering function 7 succeeds. -/
theorem C10_add_url_rule_endpoint_guard_witness :
    ((false && false) = false) ∧
    (add_url_rule ⟨false, false, [], [("home", 7)]⟩ "/" (some "home")
        (some ⟨8, "home", none, [], none⟩) none none).2 = some .endpointOverwrite ∧
    (add_url_rule ⟨false, false, [], [("home", 7)]⟩ "/" (some "home")
        (some ⟨8, "home", none, [], none⟩) none none).1.view_functions = [("home", 7)] ∧
    (add_url_rule ⟨false, false, [], [("home", 7)]⟩ "/" (some "home")
        (some ⟨7, "home", none, [], none⟩) none none).2 = none := by
  have h1 := (C10_add_url_rule_endpoint_guard ⟨false, false, [], [("home", 7)]⟩ "/" "home"
      ⟨8, "home", none, [], none⟩ none none rfl (by intro s; simp)).1
      7 (by simp [List.lookup]) (by decide)
  have h2 := (C10_add_url_rule_endpoint_guard ⟨false, false, [], [("home", 7)]⟩ "/" "home"
      ⟨7, "home", none, [], none⟩ none none rfl (by intro s; simp)).2
      (by simp [List.lookup])
  exact ⟨rfl, h1.1, h1.2, h2.1⟩

end FlaskSpec
